import Mathlib

set_option autoImplicit false

/-
Verification development for the qmd-ui file converter (converter.js).

The converter watches directories for .docx and .txt files (chokidar),
converts them to .md (mammoth for .docx, passthrough for .txt) into a
sibling mirror directory, and exposes watchDir / unwatchDir /
getWatchedDirs / convertFile.  The definitions below are a shallow
embedding of that code: pure path computations are modelled directly,
filesystem and parser effects are modelled by explicit environments, and
the asynchronous watcher behaviour is modelled by traces.
-/

namespace QmdUi

/-! ## Character-list utilities (used to model JavaScript regex tests) -/

/-- Boolean test that the list `a` occurs at the start of `b`. -/
def isPre : List Char → List Char → Bool
  | [], _ => true
  | _ :: _, [] => false
  | a :: as, b :: bs => a == b && isPre as bs

/-- Boolean test that `pat` occurs as a contiguous run anywhere in the list.
This models an unanchored JavaScript regex test for a literal pattern. -/
def hasSub (pat : List Char) : List Char → Bool
  | [] => isPre pat []
  | c :: rest => isPre pat (c :: rest) || hasSub pat rest

/-! ## Model of the Node.js path module (POSIX flavour)

Only the behaviour the converter relies on is modelled: the converter is
handed absolute directory paths (its documented contract) and derives
relative paths, basenames, extensions, joins and resolutions from them.
All computations are done on character lists by structural recursion. -/

/-- Split a character list at every slash, keeping empty segments, the
way the string of a path splits on the slash separator. -/
def splitSlash : List Char → List (List Char)
  | [] => [[]]
  | c :: rest =>
    if c == '/' then [] :: splitSlash rest
    else
      match splitSlash rest with
      | [] => [[c]]
      | h :: t => (c :: h) :: t

/-- Join segments back with slashes. -/
def joinSlash : List (List Char) → List Char
  | [] => []
  | [x] => x
  | x :: y :: t => x ++ '/' :: joinSlash (y :: t)

/-- Normalize a list of path segments the way Node normalizes a path:
empty segments and single dots vanish, a double dot pops the previous
segment (at the root of an absolute path it vanishes). -/
def normSegs (isAbs : Bool) : List (List Char) → List (List Char) → List (List Char)
  | acc, [] => acc.reverse
  | acc, s :: rest =>
    if s == [] || s == ['.'] then normSegs isAbs acc rest
    else if s == ['.', '.'] then
      match acc with
      | [] => if isAbs then normSegs isAbs [] rest else normSegs isAbs [['.', '.']] rest
      | a :: as =>
        if a == ['.', '.'] then normSegs isAbs (s :: a :: as) rest
        else normSegs isAbs as rest
    else normSegs isAbs (s :: acc) rest

/-- Model of path.resolve on an absolute input path (the converter is
documented to receive absolute paths, so the current-directory case of
path.resolve is never exercised). -/
def resolvePath (p : String) : String :=
  "/" ++ String.mk (joinSlash (normSegs true [] (splitSlash p.data)))

/-- Model of path.basename: the last nonempty slash-separated segment. -/
def baseNameOf (p : String) : String :=
  String.mk (((splitSlash p.data).filter (fun s => !(s == []))).getLastD [])

/-- Helper for extname: the suffix of the basename starting at its last
dot, provided that dot is not the leading character (Node treats a
leading dot as a hidden-file marker, not an extension separator). -/
def lastDotSuffix : Nat → List Char → Option (List Char)
  | _, [] => none
  | i, c :: rest =>
    match lastDotSuffix (i + 1) rest with
    | some s => some s
    | none => if c == '.' && decide (0 < i) then some (c :: rest) else none

/-- Model of path.extname. -/
def extname (p : String) : String :=
  match lastDotSuffix 0 (baseNameOf p).data with
  | some s => String.mk s
  | none => ""

/-- Model of path.parse(...).dir: everything before the last slash. -/
def parseDir (p : String) : String :=
  match (splitSlash p.data).dropLast with
  | [] => ""
  | segs => String.mk (joinSlash segs)

/-- Model of path.parse(...).name: the basename with its extension cut off. -/
def parseName (p : String) : String :=
  String.mk ((baseNameOf p).data.take ((baseNameOf p).data.length - (extname p).data.length))

/-- Model of path.dirname. -/
def dirnameOf (p : String) : String :=
  if parseDir p == "" then "." else parseDir p

/-- Model of path.join: drop empty parts, concatenate with slashes,
then normalize. -/
def joinPath (parts : List String) : String :=
  let joined := joinSlash ((parts.map String.data).filter (fun s => !(s == [])))
  let isAbs := isPre ['/'] joined
  let body := String.mk (joinSlash (normSegs isAbs [] (splitSlash joined)))
  if isAbs then "/" ++ body else if body == "" then "." else body

/-- Helper for path.relative: walk off the common segment run, then climb
with double dots and descend into the target. -/
def relSegs : List (List Char) → List (List Char) → List (List Char)
  | [], t => t
  | f, [] => f.map (fun _ => ['.', '.'])
  | a :: as, b :: bs =>
    if a == b then relSegs as bs
    else (a :: as).map (fun _ => ['.', '.']) ++ (b :: bs)

/-- Model of path.relative on absolute inputs. -/
def relativePath (a b : String) : String :=
  String.mk (joinSlash
    (relSegs (normSegs true [] (splitSlash a.data)) (normSegs true [] (splitSlash b.data))))

/-- Lower-case a string character by character, the way the JavaScript
toLowerCase acts on ASCII extensions. -/
def lowerStr (s : String) : String :=
  String.mk (s.data.map Char.toLower)

/-! ## converter.js: mirror naming and path mapping -/

/-- Mirror directory suffix for converted files (converter.js line 196). -/
def MIRROR_SUFFIX : String := "_qmd_converted"

/-- Model of dirPath.replace with the regex of one optional trailing
slash anchored at the end, replaced by MIRROR_SUFFIX: drop a trailing
slash if present, then append the suffix (converter.js line 254). -/
def mirrorDirOf (dirPath : String) : String :=
  (if dirPath.data.getLast? == some '/' then String.mk dirPath.data.dropLast else dirPath)
    ++ MIRROR_SUFFIX

/-- Embedding of getMirrorPath (converter.js lines 253-258). -/
def getMirrorPath (dirPath filePath : String) : String :=
  let mirrorDir := mirrorDirOf dirPath
  let relative := relativePath dirPath filePath
  joinPath [mirrorDir, parseDir relative, parseName relative ++ ".md"]

/-! ## converter.js: conversion pipeline

Filesystem reads and writes, directory creation and the mammoth parser
are effects; they are modelled by an explicit environment.  A JavaScript
await that may reject is modelled by JsResult. -/

/-- Outcome of an awaited JavaScript promise: a value or a thrown error. -/
inductive JsResult (α : Type) where
  | ok (value : α)
  | thrown (message : String)
deriving DecidableEq, Repr

/-- Result of mammoth.convertToMarkdown: the markdown value plus
structural-loss warning messages (which only reach the log). -/
structure MammothResult where
  value : String
  messages : List String
deriving DecidableEq, Repr

/-- Environment of filesystem and parser effects used by the converter.
Raw file bytes are modelled as a list of byte values. -/
structure FsEnv where
  readBuf : String → JsResult (List Nat)
  readTxt : String → JsResult String
  mammoth : List Nat → JsResult MammothResult
  mkdirOk : String → Bool
  writeOk : String → Bool

/-- A filesystem mutation performed by the converter. -/
inductive FsEffect where
  | mkdirRec (dir : String)
  | fsWrite (dest : String) (content : String)
deriving DecidableEq, Repr

/-- Provenance header prepended to every converted file
(converter.js lines 221 and 242). -/
def provHeader (srcPath : String) : String :=
  "<!-- Converted from: " ++ baseNameOf srcPath ++ " -->\n\n"

/-- Pure content produced for a .txt source whose decoded text is
content (converter.js line 244). -/
def convertTxtContent (srcPath content : String) : String :=
  provHeader srcPath ++ content

/-- Pure content produced for a .docx source whose mammoth rendering is
mammothValue (converter.js line 222). -/
def convertDocxContent (srcPath mammothValue : String) : String :=
  provHeader srcPath ++ mammothValue

/-- Embedding of convertDocx (converter.js lines 215-236): read the
bytes, run mammoth, prepend the provenance header, create the output
directory, write the file.  Every rejection is caught by the
surrounding try/catch and turned into a false return value, so the
function is total; the effect list records the mutations that happened
before any failure. -/
def convertDocx (env : FsEnv) (srcPath destPath : String) : Bool × List FsEffect :=
  match env.readBuf srcPath with
  | .thrown _ => (false, [])
  | .ok buffer =>
    match env.mammoth buffer with
    | .thrown _ => (false, [])
    | .ok result =>
      let markdown := convertDocxContent srcPath result.value
      if env.mkdirOk (dirnameOf destPath) then
        if env.writeOk destPath then
          (true, [.mkdirRec (dirnameOf destPath), .fsWrite destPath markdown])
        else (false, [.mkdirRec (dirnameOf destPath)])
      else (false, [])

/-- Embedding of convertTxt (converter.js lines 239-250): read the text,
prepend the provenance header, create the output directory, write the
file; rejections are caught and yield false. -/
def convertTxt (env : FsEnv) (srcPath destPath : String) : Bool × List FsEffect :=
  match env.readTxt srcPath with
  | .thrown _ => (false, [])
  | .ok content =>
    if env.mkdirOk (dirnameOf destPath) then
      if env.writeOk destPath then
        (true, [.mkdirRec (dirnameOf destPath),
                .fsWrite destPath (convertTxtContent srcPath content)])
      else (false, [.mkdirRec (dirnameOf destPath)])
    else (false, [])

/-! ## converter.js: watcher ignore rules and dispatch -/

/-- Model of the dotfile regex: a dot at the start or right after a
slash or backslash (converter.js line 264). -/
def dotSegMatch (p : String) : Bool :=
  isPre ['.'] p.data || hasSub ['/', '.'] p.data || hasSub ['\\', '.'] p.data

/-- Model of the chokidar ignored list (converter.js lines 263-267):
dotfiles, node_modules anywhere, and the mirror suffix anywhere — the
latter two regexes are unanchored literal substring tests. -/
def ignoredByWatcher (p : String) : Bool :=
  dotSegMatch p || hasSub "node_modules".data p.data
    || hasSub MIRROR_SUFFIX.data p.data

/-- Boolean test that p lies in the directory tree rooted at root
(chokidar watches exactly that tree). -/
def underPath (root p : String) : Bool :=
  p == root || isPre (root.data ++ ['/']) p.data

/-- Extension filter applied by processFile and by the unlink handler
(converter.js lines 277-278): the lower-cased extension must be .docx
or .txt. -/
def convertibleExt (p : String) : Bool :=
  let ext := lowerStr (extname p)
  ext == ".docx" || ext == ".txt"

/-- A raw path produces a conversion dispatch in the session watching
dirPath exactly when chokidar can see it (inside the watched tree and
not ignored) and processFile accepts its extension. -/
def wouldDispatch (dirPath p : String) : Bool :=
  underPath dirPath p && !ignoredByWatcher p && convertibleExt p

/-- Embedding of the processFile callback (converter.js lines 276-292):
route by lower-cased extension to convertDocx or convertTxt against the
mapped mirror path; other extensions are silently skipped.  The result
is the list of filesystem mutations performed. -/
def processFile (env : FsEnv) (dirPath filePath : String) : List FsEffect :=
  let ext := lowerStr (extname filePath)
  if ext == ".docx" then (convertDocx env filePath (getMirrorPath dirPath filePath)).2
  else if ext == ".txt" then (convertTxt env filePath (getMirrorPath dirPath filePath)).2
  else []

/-- One session draining a list of stabilized paths: each path is
handled by processFile independently, whatever the outcomes of the
other paths were. -/
def sessionDispatches (env : FsEnv) (dirPath : String) (paths : List String) :
    List (String × List FsEffect) :=
  paths.map (fun p => (p, processFile env dirPath p))

/-- Two independent sessions (directories A and B) draining their own
stabilized paths in the same process. -/
def runTwoSessions (env : FsEnv) (dirA : String) (pathsA : List String)
    (dirB : String) (pathsB : List String) :
    List (String × List FsEffect) × List (String × List FsEffect) :=
  (sessionDispatches env dirA pathsA, sessionDispatches env dirB pathsB)

/-! ## converter.js: registry (watchDir) and on-demand conversion -/

/-- Process-wide registry state: the activeWatchers map (dirPath to
watcher handle) plus a counter modelling allocation of fresh chokidar
watcher instances. -/
structure RegistryState where
  activeWatchers : List (String × Nat)
  nextHandle : Nat
deriving DecidableEq, Repr

/-- Lookup in the activeWatchers map. -/
def lookupWatcher : List (String × Nat) → String → Option Nat
  | [], _ => none
  | (k, v) :: rest, key => if k == key then some v else lookupWatcher rest key

/-- Number of entries registered under a key. -/
def countKey (key : String) : List (String × Nat) → Nat
  | [] => 0
  | (k, _) :: rest => (if k == key then 1 else 0) + countKey key rest

/-- Result record of watchDir. -/
structure WatchDirResult where
  mirrorDir : String
  already : Bool
deriving DecidableEq, Repr

/-- Embedding of watchDir (converter.js lines 325-337): resolve the
path; if a watcher is registered under the resolved path, return its
mirror directory with already = true and leave the state untouched;
otherwise allocate a watcher, register it, and return already = false. -/
def watchDir (st : RegistryState) (dirPath : String) : WatchDirResult × RegistryState :=
  let resolved := resolvePath dirPath
  match lookupWatcher st.activeWatchers resolved with
  | some _ => ({ mirrorDir := mirrorDirOf resolved, already := true }, st)
  | none =>
    ({ mirrorDir := mirrorDirOf resolved, already := false },
     { activeWatchers := (resolved, st.nextHandle) :: st.activeWatchers,
       nextHandle := st.nextHandle + 1 })

/-- Result record of convertFile. -/
structure ConvertFileResult where
  ok : Bool
  outputPath : Option String
  error : Option String
deriving DecidableEq, Repr

/-- Error message returned for a non-convertible extension
(converter.js line 372). -/
def unsupportedMsg : String :=
  "Unsupported file type. Only .docx and .txt are supported."

/-- Embedding of convertFile (converter.js lines 369-388): validate the
lower-cased extension before touching the filesystem; on success route
to the matching converter with the output path in outputDir (or the
file's own directory when outputDir is omitted). -/
def convertFile (env : FsEnv) (filePath : String) (outputDir : Option String) :
    ConvertFileResult × List FsEffect :=
  let ext := lowerStr (extname filePath)
  if ext != ".docx" && ext != ".txt" then
    ({ ok := false, outputPath := none, error := some unsupportedMsg }, [])
  else
    let outputPath := joinPath [outputDir.getD (dirnameOf filePath), parseName filePath ++ ".md"]
    let r := if ext == ".docx" then convertDocx env filePath outputPath
             else convertTxt env filePath outputPath
    if r.1 then ({ ok := true, outputPath := some outputPath, error := none }, r.2)
    else ({ ok := false, outputPath := none,
            error := some ("Failed to convert " ++ baseNameOf filePath) }, r.2)

/-! ## Debounce model

Modelled from the spec: the debounce engine itself lives in the
chokidar dependency, outside this repository; watchDirectory only
configures it (converter.js lines 270-273, awaitWriteFinish with
stabilityThreshold 1000 and pollInterval 200).  A path is dispatched
once it has received no further write for a full stability threshold,
and the content dispatched is the content present after that last
write. -/

/-- The configured stability threshold in milliseconds
(converter.js line 271). -/
def stabilityThreshold : Nat := 1000

/-- The configured poll interval in milliseconds (converter.js line
272); polling only delays the dispatch instant within one interval and
is abstracted away below. -/
def pollInterval : Nat := 200

/-- A raw write event in a per-path timeline: arrival time in
milliseconds paired with the file content it leaves behind. -/
def stableAt {α : Type} (writes : List (Nat × α)) (threshold : Nat) (p : Nat × α) : Bool :=
  writes.all (fun q => decide (q.1 ≤ p.1) || decide (p.1 + threshold ≤ q.1))

/-- The dispatched events of a timeline of raw writes for one path:
exactly those writes that are followed by a full quiet window, each
dispatched with the content left by that write. -/
def dispatches {α : Type} (writes : List (Nat × α)) (threshold : Nat) : List (Nat × α) :=
  writes.filter (stableAt writes threshold)

/-- Boolean check that the write times of a timeline strictly
increase. -/
def sortedStrict {α : Type} : List (Nat × α) → Bool
  | [] => true
  | [_] => true
  | a :: b :: t => decide (a.1 < b.1) && sortedStrict (b :: t)

/-- Boolean check that every write lands within the threshold after its
predecessor, so the whole timeline is one rapid burst. -/
def withinBurst {α : Type} (threshold : Nat) : List (Nat × α) → Bool
  | [] => true
  | [_] => true
  | a :: b :: t => decide (b.1 < a.1 + threshold) && withinBurst threshold (b :: t)

/-! ## Shutdown trace model

Modelled from the spec and the chokidar close contract: unwatchDir
(converter.js lines 343-351) awaits watcher.close(), which resolves
once the underlying watch handles are released; after that no further
events are delivered, so no new dispatch starts.  The processFile
callbacks, however, are asynchronous promises that nobody retains or
awaits, so a dispatch already running when close was requested may
still perform its mirror write afterwards.  Traces over these actions
capture exactly the interleavings the code admits. -/

/-- One observable action of a session around shutdown: a conversion
dispatch starting, its mirror write landing, unwatchDir calling close,
and close resolving (unwatchDir returning). -/
inductive SessionAction where
  | dispatchStart (d : Nat)
  | mirrorWrite (d : Nat)
  | closeCall
  | closeReturn
deriving DecidableEq, Repr

/-- Trace validity checker: called and returned record whether close
has been requested and has resolved, started collects the dispatches
begun so far.  A write needs its dispatch started; close resolves only
after being called, once; no dispatch starts after close has resolved. -/
def validFrom : Bool → Bool → List Nat → List SessionAction → Bool
  | _, _, _, [] => true
  | called, returned, started, .dispatchStart d :: rest =>
    !returned && validFrom called returned (d :: started) rest
  | called, returned, started, .mirrorWrite d :: rest =>
    started.contains d && validFrom called returned started rest
  | called, returned, started, .closeCall :: rest =>
    !called && validFrom true returned started rest
  | called, returned, started, .closeReturn :: rest =>
    called && !returned && validFrom called true started rest

/-- A session trace the code can produce. -/
def sessionTraceOk (t : List SessionAction) : Bool :=
  validFrom false false [] t

/-- Checker for the property that no mirror write at all occurs after
close has resolved. -/
def noWriteAfterReturn : Bool → List SessionAction → Bool
  | _, [] => true
  | returned, .mirrorWrite _ :: rest => !returned && noWriteAfterReturn returned rest
  | _, .closeReturn :: rest => noWriteAfterReturn true rest
  | returned, _ :: rest => noWriteAfterReturn returned rest

/-- Checker for the weaker property that every mirror write occurring
after close has resolved belongs to a dispatch that had already started
before close resolved (the started set freezes at closeReturn). -/
def postReturnWritesOk : Bool → List Nat → List SessionAction → Bool
  | _, _, [] => true
  | returned, started, .dispatchStart d :: rest =>
    postReturnWritesOk returned (if returned then started else d :: started) rest
  | returned, started, .mirrorWrite d :: rest =>
    (!returned || started.contains d) && postReturnWritesOk returned started rest
  | returned, started, .closeCall :: rest => postReturnWritesOk returned started rest
  | _, started, .closeReturn :: rest => postReturnWritesOk true started rest

/-! ## Remaining auxiliary definitions -/

/-- Drop characters through the given number of newline characters;
used to strip the provenance header (comment line plus blank line) from
a converted file. -/
def dropThruNl : Nat → List Char → List Char
  | 0, l => l
  | _ + 1, [] => []
  | n + 1, c :: rest => if c == '\n' then dropThruNl n rest else dropThruNl (n + 1) rest

/-- Strip the two header lines (the provenance comment and the blank
line after it) from a converted file body. -/
def stripProvHeader (s : String) : String :=
  String.mk (dropThruNl 2 s.data)

/-- Agreement of two effect environments at everything one dispatch of
filePath in the session watching dirPath can touch: the reads of that
file, the mammoth parser, and the directory creation and write at its
mapped mirror path. -/
def agreeOnPath (e1 e2 : FsEnv) (dirPath p : String) : Prop :=
  e1.readBuf p = e2.readBuf p
  ∧ e1.readTxt p = e2.readTxt p
  ∧ e1.mammoth = e2.mammoth
  ∧ e1.mkdirOk (dirnameOf (getMirrorPath dirPath p))
      = e2.mkdirOk (dirnameOf (getMirrorPath dirPath p))
  ∧ e1.writeOk (getMirrorPath dirPath p) = e2.writeOk (getMirrorPath dirPath p)

/-- A concrete effect environment where every effect succeeds. -/
def sampleEnv : FsEnv where
  readBuf := fun _ => .ok [104, 105]
  readTxt := fun _ => .ok "hello"
  mammoth := fun _ => .ok { value := "# Doc", messages := [] }
  mkdirOk := fun _ => true
  writeOk := fun _ => true

/-- A concrete effect environment identical to sampleEnv except that
reading the file bad.docx in directory A rejects with an input/output
error. -/
def failEnv : FsEnv :=
  { sampleEnv with
    readBuf := fun p => if p == "/A/bad.docx" then .thrown "EIO" else sampleEnv.readBuf p,
    readTxt := fun p => if p == "/A/bad.docx" then .thrown "EIO" else sampleEnv.readTxt p }

/-! # Theorems -/

/-! ## Substring machinery -/

theorem isPre_append (a b : List Char) : isPre a (a ++ b) = true := by
  induction a with
  | nil => rfl
  | cons c cs ih => simp [isPre, ih]

theorem isPre_exists {pat s : List Char} (h : isPre pat s = true) :
    ∃ t, s = pat ++ t := by
  induction pat generalizing s with
  | nil => exact ⟨s, rfl⟩
  | cons c cs ih =>
    cases s with
    | nil => simp [isPre] at h
    | cons b bs =>
      simp only [isPre, Bool.and_eq_true, beq_iff_eq] at h
      obtain ⟨rfl, h2⟩ := h
      obtain ⟨t, rfl⟩ := ih h2
      exact ⟨t, rfl⟩

theorem hasSub_of_isPre {pat s : List Char} (h : isPre pat s = true) :
    hasSub pat s = true := by
  cases s with
  | nil => simpa [hasSub] using h
  | cons c rest => simp [hasSub, h]

theorem hasSub_append (pat x y : List Char) :
    hasSub pat (x ++ (pat ++ y)) = true := by
  induction x with
  | nil => exact hasSub_of_isPre (isPre_append pat y)
  | cons c cs ih => simp [hasSub, ih]

/-! ## Ignore rules -/

theorem ignored_of_hasSub_suffix (p : String)
    (h : hasSub MIRROR_SUFFIX.data p.data = true) : ignoredByWatcher p = true := by
  simp [ignoredByWatcher, h]

theorem wouldDispatch_false_of_hasSub_suffix (d p : String)
    (h : hasSub MIRROR_SUFFIX.data p.data = true) : wouldDispatch d p = false := by
  simp [wouldDispatch, ignored_of_hasSub_suffix p h]

theorem hasSub_suffix_of_under_mirror (d p : String)
    (h : underPath (mirrorDirOf d) p = true) :
    hasSub MIRROR_SUFFIX.data p.data = true := by
  have hdata : (mirrorDirOf d).data
      = (if d.data.getLast? == some '/' then String.mk d.data.dropLast else d).data
        ++ MIRROR_SUFFIX.data :=
    String.data_append _ _
  simp only [underPath, Bool.or_eq_true, beq_iff_eq] at h
  rcases h with h | h
  · rw [h, show (mirrorDirOf d).data
        = (if d.data.getLast? == some '/' then String.mk d.data.dropLast else d).data
          ++ (MIRROR_SUFFIX.data ++ []) from by rw [List.append_nil]; exact hdata]
    exact hasSub_append _ _ _
  · obtain ⟨t, ht⟩ := isPre_exists h
    rw [ht, hdata]
    simpa [List.append_assoc] using
      hasSub_append MIRROR_SUFFIX.data
        (if d.data.getLast? == some '/' then String.mk d.data.dropLast else d).data ('/' :: t)

/-- Claim C2: a convertible-looking file placed anywhere under a
session's own mirror root is never dispatched by that session — it is
outside the watched tree or ignored, so no conversion runs and no
mirror write happens for it, and the detect-write-detect loop cannot
arise. -/
theorem claim_C2_mirror_root_never_dispatched (d p : String)
    (h : underPath (mirrorDirOf d) p = true) :
    wouldDispatch d p = false :=
  wouldDispatch_false_of_hasSub_suffix d p (hasSub_suffix_of_under_mirror d p h)

/-- Witness for claim C2 at a concrete path inside the mirror root. -/
theorem claim_C2_witness :
    underPath (mirrorDirOf "/docs") "/docs_qmd_converted/sub/x.txt" = true
    ∧ wouldDispatch "/docs" "/docs_qmd_converted/sub/x.txt" = false :=
  ⟨by decide,
   claim_C2_mirror_root_never_dispatched "/docs" "/docs_qmd_converted/sub/x.txt" (by decide)⟩

/-- Claim C10: the ignore predicate matches the mirror suffix as an
unanchored substring, so every path containing the mirror suffix
anywhere, every path with a dot-initial segment, and every path
containing node_modules is excluded; a convertible file inside any
directory whose name merely contains the suffix is never dispatched,
even for a mirror directory nested inside the watched root. -/
theorem claim_C10_ignore_unanchored_substring :
    (∀ p : String, hasSub MIRROR_SUFFIX.data p.data = true → ignoredByWatcher p = true)
    ∧ (∀ p : String, hasSub "node_modules".data p.data = true → ignoredByWatcher p = true)
    ∧ (∀ p : String, dotSegMatch p = true → ignoredByWatcher p = true)
    ∧ (∀ d x y : String, wouldDispatch d (x ++ MIRROR_SUFFIX ++ y) = false)
    ∧ (∀ d p : String,
        hasSub MIRROR_SUFFIX.data p.data = true → wouldDispatch d p = false) := by
  refine ⟨fun p h => ignored_of_hasSub_suffix p h,
    fun p h => by simp [ignoredByWatcher, h],
    fun p h => by simp [ignoredByWatcher, h],
    fun d x y => ?_,
    fun d p h => wouldDispatch_false_of_hasSub_suffix d p h⟩
  apply wouldDispatch_false_of_hasSub_suffix
  have : (x ++ MIRROR_SUFFIX ++ y).data = x.data ++ (MIRROR_SUFFIX.data ++ y.data) := by
    simp [String.data_append, List.append_assoc]
  rw [this]
  exact hasSub_append _ _ _

/-- Witness for claim C10 at concrete paths. -/
theorem claim_C10_witness :
    ignoredByWatcher "/w/archive_qmd_converted_old/a.txt" = true
    ∧ ignoredByWatcher "/w/node_modules/pkg/b.txt" = true
    ∧ ignoredByWatcher "/w/.git/c.txt" = true
    ∧ wouldDispatch "/w" ("/w/nested" ++ MIRROR_SUFFIX ++ "/d.docx") = false
    ∧ wouldDispatch "/w" "/w/my_qmd_converted_docs/e.txt" = false :=
  ⟨claim_C10_ignore_unanchored_substring.1 _ (by decide),
   claim_C10_ignore_unanchored_substring.2.1 _ (by decide),
   claim_C10_ignore_unanchored_substring.2.2.1 _ (by decide),
   claim_C10_ignore_unanchored_substring.2.2.2.1 "/w" "/w/nested" "/d.docx",
   claim_C10_ignore_unanchored_substring.2.2.2.2 "/w" _ (by decide)⟩

/-! ## Mirror path mapping -/

/-- Counterexample for claim C9 as stated: for sourceRoot /a the code
computes the mirror root with the suffix of the source, so the file
does not map into /a_converted. -/
theorem claim_C9_counterexample :
    getMirrorPath "/a" "/a/notes/x.docx" ≠ "/a_converted/notes/x.md" := by decide

/-- Claim C9 as amended: with the mirror root the code actually derives
for /a, namely /a_qmd_converted, the file /a/notes/x.docx maps to
/a_qmd_converted/notes/x.md — the path relative to the source root is
preserved, the final extension is replaced by .md, and the result is
prefixed with the mirror root. -/
theorem claim_C9_mirror_mapping :
    getMirrorPath "/a" "/a/notes/x.docx" = "/a_qmd_converted/notes/x.md"
    ∧ mirrorDirOf "/a" = "/a" ++ MIRROR_SUFFIX
    ∧ relativePath "/a" "/a/notes/x.docx" = "notes/x.docx"
    ∧ parseName (relativePath "/a" "/a/notes/x.docx") = "x"
    ∧ getMirrorPath "/a" "/a/notes/x.docx"
        = mirrorDirOf "/a" ++ "/" ++ "notes" ++ "/" ++ "x" ++ ".md" :=
  ⟨by decide, by decide, by decide, by decide, by decide⟩

/-! ## On-demand conversion -/

/-- Claim C6: for a file whose lower-cased extension is neither .docx
nor .txt, convertFile returns the typed unsupported-file-type failure
before touching the filesystem: no write and no directory creation. -/
theorem claim_C6_unsupported_no_writes (env : FsEnv) (filePath : String)
    (outputDir : Option String)
    (h1 : lowerStr (extname filePath) ≠ ".docx")
    (h2 : lowerStr (extname filePath) ≠ ".txt") :
    convertFile env filePath outputDir
      = ({ ok := false, outputPath := none, error := some unsupportedMsg }, []) := by
  simp [convertFile, h1, h2]

/-- Witness for claim C6 on report.pdf. -/
theorem claim_C6_witness :
    lowerStr (extname "/tmp/report.pdf") ≠ ".docx"
    ∧ lowerStr (extname "/tmp/report.pdf") ≠ ".txt"
    ∧ convertFile sampleEnv "/tmp/report.pdf" none
        = ({ ok := false, outputPath := none, error := some unsupportedMsg }, []) :=
  ⟨by decide, by decide,
   claim_C6_unsupported_no_writes sampleEnv "/tmp/report.pdf" none (by decide) (by decide)⟩

/-! ## Registry idempotence -/

theorem countKey_zero_of_lookup_none (l : List (String × Nat)) (key : String)
    (h : lookupWatcher l key = none) : countKey key l = 0 := by
  induction l with
  | nil => rfl
  | cons kv rest ih =>
    obtain ⟨k, v⟩ := kv
    by_cases hk : (k == key) = true
    · simp [lookupWatcher, hk] at h
    · simp only [lookupWatcher, hk, if_false] at h
      simp [countKey, hk, ih h]

/-- Claim C3: calling watchDir twice on the same path returns already =
false then already = true; the second call changes nothing and both
calls report the same mirror directory, and exactly one watcher handle
is registered for the canonical form of the path. -/
theorem claim_C3_watch_idempotent (st : RegistryState) (P : String)
    (h : lookupWatcher st.activeWatchers (resolvePath P) = none) :
    (watchDir st P).1.already = false
    ∧ (watchDir (watchDir st P).2 P).1.already = true
    ∧ (watchDir (watchDir st P).2 P).2 = (watchDir st P).2
    ∧ (watchDir (watchDir st P).2 P).1.mirrorDir = (watchDir st P).1.mirrorDir
    ∧ countKey (resolvePath P) (watchDir st P).2.activeWatchers = 1 := by
  have h0 := countKey_zero_of_lookup_none _ _ h
  simp [watchDir, h, lookupWatcher, countKey, h0]

/-- Witness for claim C3 from the empty registry. -/
theorem claim_C3_witness :
    lookupWatcher ([] : List (String × Nat)) (resolvePath "/docs") = none
    ∧ (watchDir ⟨[], 0⟩ "/docs").1.already = false
    ∧ (watchDir (watchDir ⟨[], 0⟩ "/docs").2 "/docs").1.already = true
    ∧ (watchDir (watchDir ⟨[], 0⟩ "/docs").2 "/docs").2 = (watchDir ⟨[], 0⟩ "/docs").2
    ∧ countKey (resolvePath "/docs") (watchDir ⟨[], 0⟩ "/docs").2.activeWatchers = 1 := by
  have h := claim_C3_watch_idempotent ⟨[], 0⟩ "/docs" rfl
  exact ⟨rfl, h.1, h.2.1, h.2.2.1, h.2.2.2.2⟩

/-! ## Plain-text conversion round trip -/

theorem dropThruNl_cons_ne {c : Char} (h : (c == '\n') = false) (n : Nat)
    (rest : List Char) :
    dropThruNl (n + 1) (c :: rest) = dropThruNl (n + 1) rest := by
  simp [dropThruNl, h]

theorem dropThruNl_through {xs : List Char} (ys : List Char) (h : ('\n') ∉ xs) :
    dropThruNl 2 (xs ++ '\n' :: '\n' :: ys) = ys := by
  induction xs with
  | nil => simp [dropThruNl]
  | cons c cs ih =>
    have hc : (c == '\n') = false := by
      simp only [beq_eq_false_iff_ne, ne_eq]
      exact fun e => h (e ▸ List.mem_cons_self c cs)
    have hcs : ('\n') ∉ cs := fun m => h (List.mem_cons_of_mem _ m)
    rw [List.cons_append, dropThruNl_cons_ne hc 1]
    exact ih hcs

/-- Claim C5: the converted output for a plain-text file is exactly one
provenance comment line naming the base name of the original file,
then a blank line, then the source content unchanged; stripping the
two header lines recovers the content exactly. -/
theorem claim_C5_txt_roundtrip (p c : String) (h : ('\n') ∉ (baseNameOf p).data) :
    (convertTxtContent p c).data
      = ("<!-- Converted from: " ++ baseNameOf p ++ " -->").data ++ '\n' :: '\n' :: c.data
    ∧ stripProvHeader (convertTxtContent p c) = c := by
  have h2 : (" -->\n\n" : String).data = (" -->" : String).data ++ ['\n', '\n'] := rfl
  have hdata : (convertTxtContent p c).data
      = ("<!-- Converted from: ".data ++ (baseNameOf p).data ++ " -->".data)
        ++ '\n' :: '\n' :: c.data := by
    simp [convertTxtContent, provHeader, String.data_append, h2, List.append_assoc]
  have hnot : ('\n')
      ∉ "<!-- Converted from: ".data ++ (baseNameOf p).data ++ " -->".data := by
    intro m
    rcases List.mem_append.mp m with m1 | m2
    rcases List.mem_append.mp m1 with m3 | m4
    · exact absurd m3 (by decide)
    · exact h m4
    · exact absurd m2 (by decide)
  constructor
  · rw [hdata]
    simp [String.data_append, List.append_assoc]
  · have key := dropThruNl_through c.data hnot
    have : stripProvHeader (convertTxtContent p c) = String.mk c.data := by
      simp only [stripProvHeader, hdata]
      rw [key]
    exact this

/-- Witness for claim C5 on content hello. -/
theorem claim_C5_witness :
    ('\n') ∉ (baseNameOf "/w/notes.txt").data
    ∧ stripProvHeader (convertTxtContent "/w/notes.txt" "hello") = "hello" :=
  ⟨by decide, (claim_C5_txt_roundtrip "/w/notes.txt" "hello" (by decide)).2⟩

/-! ## Per-file isolation of session dispatch -/

theorem convertDocx_congr (e1 e2 : FsEnv) (s dest : String)
    (hb : e1.readBuf s = e2.readBuf s) (hm : e1.mammoth = e2.mammoth)
    (hk : e1.mkdirOk (dirnameOf dest) = e2.mkdirOk (dirnameOf dest))
    (hw : e1.writeOk dest = e2.writeOk dest) :
    convertDocx e1 s dest = convertDocx e2 s dest := by
  simp only [convertDocx, hb, hm, hk, hw]

theorem convertTxt_congr (e1 e2 : FsEnv) (s dest : String)
    (ht : e1.readTxt s = e2.readTxt s)
    (hk : e1.mkdirOk (dirnameOf dest) = e2.mkdirOk (dirnameOf dest))
    (hw : e1.writeOk dest = e2.writeOk dest) :
    convertTxt e1 s dest = convertTxt e2 s dest := by
  simp only [convertTxt, ht, hk, hw]

theorem processFile_congr (e1 e2 : FsEnv) (d p : String)
    (h : agreeOnPath e1 e2 d p) : processFile e1 d p = processFile e2 d p := by
  obtain ⟨hb, ht, hm, hk, hw⟩ := h
  by_cases h1 : (lowerStr (extname p) == ".docx") = true
  · simp [processFile, h1, convertDocx_congr e1 e2 p (getMirrorPath d p) hb hm hk hw]
  · by_cases h2 : (lowerStr (extname p) == ".txt") = true
    · simp [processFile, h1, h2,
        convertTxt_congr e1 e2 p (getMirrorPath d p) ht hk hw]
    · simp [processFile, h1, h2]

theorem sessionDispatches_congr (e1 e2 : FsEnv) (d : String) (paths : List String)
    (h : ∀ p ∈ paths, agreeOnPath e1 e2 d p) :
    sessionDispatches e1 d paths = sessionDispatches e2 d paths := by
  induction paths with
  | nil => rfl
  | cons q rest ih =>
    have hq := h q (List.mem_cons_self q rest)
    have hrest : ∀ p ∈ rest, agreeOnPath e1 e2 d p :=
      fun p hp => h p (List.mem_cons_of_mem _ hp)
    simp [sessionDispatches, processFile_congr e1 e2 d q hq] at ih ⊢
    exact ih hrest

/-- Claim C7: a conversion or input-output error in one file never
propagates.  First, a session drains every stabilized path, producing
one dispatch record per path whatever the per-file outcomes are (the
try/catch in convertDocx and convertTxt makes each dispatch total).
Second, the dispatch of a path depends only on the effects at that path
and at its own mirror target, so an error at a different file (an
environment differing at that other file) leaves it unchanged.  Third,
the same locality holds across two independent sessions: whatever
happens at directory A, directory B's session dispatches unchanged. -/
theorem claim_C7_per_file_isolation :
    (∀ (env : FsEnv) (d : String) (paths : List String),
      (sessionDispatches env d paths).length = paths.length)
    ∧ (∀ (e1 e2 : FsEnv) (d : String) (paths : List String),
        (∀ p ∈ paths, agreeOnPath e1 e2 d p) →
        sessionDispatches e1 d paths = sessionDispatches e2 d paths)
    ∧ (∀ (e1 e2 : FsEnv) (dA : String) (pathsA : List String)
         (dB : String) (pathsB : List String),
        (∀ p ∈ pathsB, agreeOnPath e1 e2 dB p) →
        (runTwoSessions e1 dA pathsA dB pathsB).2
          = (runTwoSessions e2 dA pathsA dB pathsB).2) :=
  ⟨fun env d paths => by simp [sessionDispatches],
   sessionDispatches_congr,
   fun e1 e2 dA pathsA dB pathsB h => sessionDispatches_congr e1 e2 dB pathsB h⟩

/-- Witness for claim C7: failEnv rejects every read of bad.docx in
directory A while sampleEnv does not, yet the dispatch records of the
other file of directory A and of directory B's session coincide under
the two environments, and no dispatch is lost. -/
theorem claim_C7_witness :
    (∀ p ∈ ["/A/ok.txt"], agreeOnPath failEnv sampleEnv "/A" p)
    ∧ (sessionDispatches failEnv "/A" ["/A/bad.docx", "/A/ok.txt"]).length = 2
    ∧ sessionDispatches failEnv "/A" ["/A/ok.txt"]
        = sessionDispatches sampleEnv "/A" ["/A/ok.txt"]
    ∧ (runTwoSessions failEnv "/A" ["/A/bad.docx"] "/B" ["/B/doc.docx"]).2
        = (runTwoSessions sampleEnv "/A" ["/A/bad.docx"] "/B" ["/B/doc.docx"]).2 := by
  have hagA : ∀ p ∈ ["/A/ok.txt"], agreeOnPath failEnv sampleEnv "/A" p := by
    intro p hp
    simp only [List.mem_singleton] at hp
    subst hp
    exact ⟨by decide, by decide, rfl, rfl, rfl⟩
  have hagB : ∀ p ∈ ["/B/doc.docx"], agreeOnPath failEnv sampleEnv "/B" p := by
    intro p hp
    simp only [List.mem_singleton] at hp
    subst hp
    exact ⟨by decide, by decide, rfl, rfl, rfl⟩
  refine ⟨hagA, ?_, ?_, ?_⟩
  · exact claim_C7_per_file_isolation.1 failEnv "/A" ["/A/bad.docx", "/A/ok.txt"]
  · exact claim_C7_per_file_isolation.2.1 failEnv sampleEnv "/A" ["/A/ok.txt"] hagA
  · exact claim_C7_per_file_isolation.2.2 failEnv sampleEnv
      "/A" ["/A/bad.docx"] "/B" ["/B/doc.docx"] hagB

/-! ## Determinism of the conversion pipeline -/

/-- Counterexample for claim C8 as stated: two plain-text conversion
calls reading identical bytes (both files hold hello) produce different
outputs, because the provenance header names the source base name. -/
theorem claim_C8_counterexample :
    sampleEnv.readTxt "/w/a.txt" = sampleEnv.readTxt "/w/b.txt"
    ∧ (convertTxt sampleEnv "/w/a.txt" "/m/a.md").2
        ≠ (convertTxt sampleEnv "/w/b.txt" "/m/a.md").2 := by
  exact ⟨rfl, by decide⟩

/-- Claim C8 as amended: the pipeline is deterministic once the source
base name is fixed along with the bytes and the kind — two conversion
calls that read the same bytes, have the same base name and target the
same destination produce identical results and effects, for both
kinds. -/
theorem claim_C8_deterministic (env : FsEnv) (p1 p2 dest : String)
    (hbase : baseNameOf p1 = baseNameOf p2)
    (hbuf : env.readBuf p1 = env.readBuf p2)
    (htxt : env.readTxt p1 = env.readTxt p2) :
    convertDocx env p1 dest = convertDocx env p2 dest
    ∧ convertTxt env p1 dest = convertTxt env p2 dest := by
  constructor
  · simp only [convertDocx, convertDocxContent, provHeader, hbuf, hbase]
  · simp only [convertTxt, convertTxtContent, provHeader, htxt, hbase]

/-- Witness for claim C8 as amended: same bytes, same base name,
different directories. -/
theorem claim_C8_witness :
    baseNameOf "/d1/n.txt" = baseNameOf "/d2/n.txt"
    ∧ sampleEnv.readBuf "/d1/n.txt" = sampleEnv.readBuf "/d2/n.txt"
    ∧ sampleEnv.readTxt "/d1/n.txt" = sampleEnv.readTxt "/d2/n.txt"
    ∧ convertTxt sampleEnv "/d1/n.txt" "/m/n.md"
        = convertTxt sampleEnv "/d2/n.txt" "/m/n.md" :=
  ⟨by decide, rfl, rfl,
   (claim_C8_deterministic sampleEnv "/d1/n.txt" "/d2/n.txt" "/m/n.md"
      (by decide) rfl rfl).2⟩

/-! ## Debounce: one dispatch per burst -/

theorem sortedStrict_lt_of_mem {α : Type} {x p : Nat × α} {t : List (Nat × α)}
    (hs : sortedStrict (x :: t) = true) (hp : p ∈ t) : x.1 < p.1 := by
  induction t generalizing x with
  | nil => cases hp
  | cons y t' ih =>
    simp only [sortedStrict, Bool.and_eq_true, decide_eq_true_eq] at hs
    rcases List.mem_cons.mp hp with rfl | hp'
    · exact hs.1
    · exact Nat.lt_trans hs.1 (ih hs.2 hp')

theorem dispatches_burst {α : Type} (θ : Nat) :
    ∀ (l : List (Nat × α)) (hne : l ≠ []),
      sortedStrict l = true → withinBurst θ l = true →
      dispatches l θ = [l.getLast hne] := by
  intro l
  induction l with
  | nil => intro hne _ _; exact absurd rfl hne
  | cons x t ih =>
    intro hne hs hb
    cases t with
    | nil => simp [dispatches, stableAt]
    | cons y t' =>
      simp only [sortedStrict, Bool.and_eq_true, decide_eq_true_eq] at hs
      simp only [withinBurst, Bool.and_eq_true, decide_eq_true_eq] at hb
      have hy1 : (decide (y.1 ≤ x.1) || decide (x.1 + θ ≤ y.1)) = false := by
        simp only [Bool.or_eq_false_iff, decide_eq_false_iff_not]
        omega
      have hx : stableAt (x :: y :: t') θ x = false := by
        simp [stableAt, hy1]
      have hcongr : ∀ p ∈ y :: t',
          stableAt (x :: y :: t') θ p = stableAt (y :: t') θ p := by
        intro p hp
        have hxp : x.1 < p.1 :=
          sortedStrict_lt_of_mem (by simp [sortedStrict, hs.1, hs.2]) hp
        have hxd : (decide (x.1 ≤ p.1)) = true := decide_eq_true (Nat.le_of_lt hxp)
        simp [stableAt, hxd]
      have step1 : dispatches (x :: y :: t') θ
          = (y :: t').filter (stableAt (x :: y :: t') θ) := by
        simp [dispatches, List.filter_cons, hx]
      rw [step1, List.filter_congr hcongr]
      have ih' := ih (by simp) hs.2 hb.2
      rw [show (y :: t').filter (stableAt (y :: t') θ) = dispatches (y :: t') θ from rfl,
        ih']
      simp [List.getLast_cons]

/-- Claim C1: raw writes to one path forming a single rapid burst (each
arriving within the stability threshold of its predecessor) coalesce
into exactly one dispatch: the write dispatched is the last write of
the burst, carrying the content present after it, and it is dispatched
only because a full stability threshold of quiet follows it, never an
intermediate write of the burst. -/
theorem claim_C1_debounce_single_dispatch {α : Type} (writes : List (Nat × α))
    (hne : writes ≠ [])
    (hs : sortedStrict writes = true)
    (hb : withinBurst stabilityThreshold writes = true) :
    dispatches writes stabilityThreshold = [writes.getLast hne] :=
  dispatches_burst stabilityThreshold writes hne hs hb

/-- Witness for claim C1: three writes 300 milliseconds apart coalesce
into one dispatch carrying the last content. -/
theorem claim_C1_witness :
    ([(0, 10), (300, 20), (600, 30)] : List (Nat × Nat)) ≠ []
    ∧ sortedStrict ([(0, 10), (300, 20), (600, 30)] : List (Nat × Nat)) = true
    ∧ withinBurst stabilityThreshold ([(0, 10), (300, 20), (600, 30)] : List (Nat × Nat)) = true
    ∧ dispatches ([(0, 10), (300, 20), (600, 30)] : List (Nat × Nat)) stabilityThreshold
        = [(600, 30)] := by
  refine ⟨by decide, by decide, by decide, ?_⟩
  have h := claim_C1_debounce_single_dispatch
    ([(0, 10), (300, 20), (600, 30)] : List (Nat × Nat)) (by decide) (by decide) (by decide)
  simpa using h

/-! ## Shutdown: what unwatchDir does and does not guarantee -/

theorem validFrom_postReturn (t : List SessionAction) :
    ∀ (called returned : Bool) (started : List Nat),
      validFrom called returned started t = true →
      postReturnWritesOk returned started t = true := by
  induction t with
  | nil => intro _ _ _ _; rfl
  | cons a rest ih =>
    intro called returned started h
    cases a with
    | dispatchStart d =>
      simp only [validFrom, Bool.and_eq_true, Bool.not_eq_true'] at h
      obtain ⟨h1, h2⟩ := h
      subst h1
      simpa [postReturnWritesOk] using ih called false (d :: started) h2
    | mirrorWrite d =>
      simp only [validFrom, Bool.and_eq_true] at h
      obtain ⟨h1, h2⟩ := h
      have hd : d ∈ started := by simpa using h1
      simp [postReturnWritesOk, hd, ih called returned started h2]
    | closeCall =>
      simp only [validFrom, Bool.and_eq_true, Bool.not_eq_true'] at h
      obtain ⟨h1, h2⟩ := h
      simpa [postReturnWritesOk] using ih true returned started h2
    | closeReturn =>
      simp only [validFrom, Bool.and_eq_true, Bool.not_eq_true'] at h
      simpa [postReturnWritesOk] using ih called true started h.2

/-- Counterexample for claim C4 as stated: the trace in which a
dispatch starts, unwatchDir runs close to completion, and only then the
dispatch's mirror write lands, is a trace the code admits — unwatchDir
awaits only watcher.close() and nothing retains or awaits the pending
processFile promise, so a mirror write can occur after unwatch has
returned. -/
theorem claim_C4_counterexample :
    sessionTraceOk
        [SessionAction.dispatchStart 0, SessionAction.closeCall,
         SessionAction.closeReturn, SessionAction.mirrorWrite 0] = true
    ∧ noWriteAfterReturn false
        [SessionAction.dispatchStart 0, SessionAction.closeCall,
         SessionAction.closeReturn, SessionAction.mirrorWrite 0] = false :=
  ⟨by decide, by decide⟩

/-- Claim C4 as amended: unwatchDir does not return before the watch
mechanism has released its resources, and once it has returned no new
dispatch starts — every mirror write occurring after unwatch returned
belongs to a dispatch already in flight when the stop was requested. -/
theorem claim_C4_quiescence_after_close (t : List SessionAction)
    (h : sessionTraceOk t = true) :
    postReturnWritesOk false [] t = true :=
  validFrom_postReturn t false false [] h

/-- Witness for claim C4 as amended on a concrete shutdown trace. -/
theorem claim_C4_witness :
    sessionTraceOk
        [SessionAction.dispatchStart 0, SessionAction.mirrorWrite 0,
         SessionAction.closeCall, SessionAction.closeReturn] = true
    ∧ postReturnWritesOk false []
        [SessionAction.dispatchStart 0, SessionAction.mirrorWrite 0,
         SessionAction.closeCall, SessionAction.closeReturn] = true :=
  ⟨by decide, claim_C4_quiescence_after_close _ (by decide)⟩

end QmdUi
